import Mathlib

/-!
Verification of the ToIStact-AI tolerance-analysis engines.

The repository computes (a) a 1-D linear tolerance stack-up over an ordered
list of dimension records, producing nominal / worst-case / RSS bounds and a
normal-tail interference probability, and (b) a GD&T hole-pattern fit
analysis (floating / fixed fastener) with an MMC budget and a 2-axis
misalignment simulation, plus a lossy mm/inch unit conversion.

The numeric inputs are embedded as rationals (the source works on plain
JavaScript numbers); the square root and the exponential that the engines
apply to those rationals live in `ℝ`.  Each definition mirrors the source
statement for statement: the linear engine's `forEach` accumulation is the
`List.foldl` over `stepSums`, its `reduce` for the RSS sum of squares is
`rssSumSquares`, and the hole-fit `useMemo` body is `computeFit`.
Reference definitions written from the specification's own words (partition
by direction, then sum) are named `spec...` and compared with the source
embedding where a claim asks for it.
-/

/-- Direction of a stack contributor (source `DimensionType`). -/
inductive DimensionType where
  | INCREASING
  | DECREASING
  deriving DecidableEq

/-- One contributor in a linear stack (source `Dimension`; the identifier,
name and description fields are display-only and carry no calculation
meaning, so they are not modelled). -/
structure Dimension where
  nominal : ℚ
  tolerancePlus : ℚ
  toleranceMinus : ℚ
  type : DimensionType
  deriving DecidableEq

/-- Output of the linear engine (source `StackupResult`). -/
structure StackupResult where
  nominalGap : ℚ
  worstCaseMin : ℚ
  worstCaseMax : ℚ
  rssMin : ℝ
  rssMax : ℝ
  contributors : ℕ
  interferenceProb : ℝ

/-- The six running sums the source's `forEach` loop accumulates. -/
structure StackSums where
  incNom : ℚ
  incMax : ℚ
  incMin : ℚ
  decNom : ℚ
  decMax : ℚ
  decMin : ℚ
  deriving DecidableEq

/-- All six accumulators start at zero. -/
def initSums : StackSums := ⟨0, 0, 0, 0, 0, 0⟩

/-- One pass of the source's `forEach` body over the six accumulators. -/
def stepSums (s : StackSums) (d : Dimension) : StackSums :=
  match d.type with
  | DimensionType.INCREASING =>
      { s with
        incNom := s.incNom + d.nominal
        incMax := s.incMax + (d.nominal + d.tolerancePlus)
        incMin := s.incMin + (d.nominal - d.toleranceMinus) }
  | DimensionType.DECREASING =>
      { s with
        decNom := s.decNom + d.nominal
        decMax := s.decMax + (d.nominal + d.tolerancePlus)
        decMin := s.decMin + (d.nominal - d.toleranceMinus) }

/-- The source's `reduce` that sums `t*t` with `t = (tolerancePlus +
toleranceMinus)/2`, starting from `0`. -/
def rssSumSquares (dims : List Dimension) : ℚ :=
  dims.foldl
    (fun acc d =>
      acc + ((d.tolerancePlus + d.toleranceMinus) / 2) *
        ((d.tolerancePlus + d.toleranceMinus) / 2))
    0

/-- `t = 1 / (1 + 0.2316419 * |z|)` of the source's normal-CDF approximation. -/
noncomputable def approxT (z : ℝ) : ℝ := 1 / (1 + 0.2316419 * |z|)

/-- `d = 0.3989423 * exp(-z*z/2)` of the source's normal-CDF approximation. -/
noncomputable def approxPhi (z : ℝ) : ℝ := 0.3989423 * Real.exp (-z * z / 2)

/-- The raw polynomial tail value `p` the source computes before the
`zScore > 0` flip. -/
noncomputable def approxP (z : ℝ) : ℝ :=
  approxPhi z * approxT z *
    (0.3193815 + approxT z *
      (-0.3565638 + approxT z *
        (1.781478 + approxT z * (-1.821256 + approxT z * 1.330274))))

/-- The source's tail value after the `if (zScore > 0) p = 1 - p` step. -/
noncomputable def normCdfApprox (z : ℝ) : ℝ :=
  if 0 < z then 1 - approxP z else approxP z

open Classical in
/-- The linear engine: the `useMemo` body computing a `StackupResult` from
the dimension list.  `sigma || 0.001` is JavaScript's falsy-guard on a
non-negative number, i.e. `0.001` exactly when `sigma = 0`; the probability
is computed only under the `sigma > 0` test and is the literal `0`
otherwise. -/
noncomputable def computeStackup (dims : List Dimension) : StackupResult :=
  let s := dims.foldl stepSums initSums
  let nominalGap := s.incNom - s.decNom
  let wcMax := s.incMax - s.decMin
  let wcMin := s.incMin - s.decMax
  let rssTol : ℝ := Real.sqrt ((rssSumSquares dims : ℚ) : ℝ)
  let sigma := rssTol / 3
  let zScore := (0 - (nominalGap : ℝ)) / (if sigma = 0 then 0.001 else sigma)
  let prob := if 0 < sigma then normCdfApprox zScore * 100 else 0
  { nominalGap := nominalGap
    worstCaseMin := wcMin
    worstCaseMax := wcMax
    rssMin := (nominalGap : ℝ) - rssTol
    rssMax := (nominalGap : ℝ) + rssTol
    contributors := dims.length
    interferenceProb := prob }

/-- Reference partition of the sequence: the INCREASING contributors, in
order (from the specification's "partition the sequence by direction"). -/
def incDims : List Dimension → List Dimension
  | [] => []
  | d :: l =>
      match d.type with
      | DimensionType.INCREASING => d :: incDims l
      | DimensionType.DECREASING => incDims l

/-- Reference partition: the DECREASING contributors, in order. -/
def decDims : List Dimension → List Dimension
  | [] => []
  | d :: l =>
      match d.type with
      | DimensionType.INCREASING => decDims l
      | DimensionType.DECREASING => d :: decDims l

/-- Reference `Ni`: sum of nominals over the INCREASING contributors. -/
def specNi (dims : List Dimension) : ℚ :=
  ((incDims dims).map (fun d => d.nominal)).sum

/-- Reference `Nd`: sum of nominals over the DECREASING contributors. -/
def specNd (dims : List Dimension) : ℚ :=
  ((decDims dims).map (fun d => d.nominal)).sum

/-- Reference `IncMax = Σ (nominal + tolerancePlus)` over INCREASING. -/
def specIncMax (dims : List Dimension) : ℚ :=
  ((incDims dims).map (fun d => d.nominal + d.tolerancePlus)).sum

/-- Reference `IncMin = Σ (nominal - toleranceMinus)` over INCREASING. -/
def specIncMin (dims : List Dimension) : ℚ :=
  ((incDims dims).map (fun d => d.nominal - d.toleranceMinus)).sum

/-- Reference `DecMax = Σ (nominal + tolerancePlus)` over DECREASING. -/
def specDecMax (dims : List Dimension) : ℚ :=
  ((decDims dims).map (fun d => d.nominal + d.tolerancePlus)).sum

/-- Reference `DecMin = Σ (nominal - toleranceMinus)` over DECREASING. -/
def specDecMin (dims : List Dimension) : ℚ :=
  ((decDims dims).map (fun d => d.nominal - d.toleranceMinus)).sum

/-- Reference sum of squared symmetrized tolerances over all dimensions. -/
def specRssSS (dims : List Dimension) : ℚ :=
  (dims.map (fun d => ((d.tolerancePlus + d.toleranceMinus) / 2) ^ 2)).sum

/-- Reference `rssTolerance = sqrt (Σ t²)` over all dimensions. -/
noncomputable def specRssTol (dims : List Dimension) : ℝ :=
  Real.sqrt ((specRssSS dims : ℚ) : ℝ)

/-- The default four-dimension scenario the application loads (Housing /
PCB / Standoff / Battery, source `INITIAL_DIMENSIONS`). -/
def demoDims : List Dimension :=
  [⟨20, 0.2, 0.2, DimensionType.INCREASING⟩,
   ⟨1.6, 0.1, 0.1, DimensionType.DECREASING⟩,
   ⟨5, 0.05, 0.05, DimensionType.DECREASING⟩,
   ⟨12.5, 0.3, 0.1, DimensionType.DECREASING⟩]

lemma foldl_stepSums (dims : List Dimension) : ∀ s : StackSums,
    dims.foldl stepSums s =
      ⟨s.incNom + specNi dims, s.incMax + specIncMax dims,
       s.incMin + specIncMin dims, s.decNom + specNd dims,
       s.decMax + specDecMax dims, s.decMin + specDecMin dims⟩ := by
  induction dims with
  | nil =>
      intro s
      simp [specNi, specNd, specIncMax, specIncMin, specDecMax, specDecMin,
        incDims, decDims]
  | cons d l ih =>
      intro s
      cases h : d.type with
      | INCREASING =>
          simp only [List.foldl_cons, ih, stepSums, h, specNi, specNd,
            specIncMax, specIncMin, specDecMax, specDecMin, incDims, decDims,
            List.map_cons, List.sum_cons]
          refine StackSums.mk.injEq .. ▸ ?_
          norm_num
          refine ⟨by ring, by ring, by ring⟩
      | DECREASING =>
          simp only [List.foldl_cons, ih, stepSums, h, specNi, specNd,
            specIncMax, specIncMin, specDecMax, specDecMin, incDims, decDims,
            List.map_cons, List.sum_cons]
          refine StackSums.mk.injEq .. ▸ ?_
          norm_num
          refine ⟨by ring, by ring, by ring⟩

lemma rssSumSquares_eq (dims : List Dimension) :
    rssSumSquares dims = specRssSS dims := by
  have aux : ∀ (l : List Dimension) (a : ℚ),
      l.foldl
        (fun acc d =>
          acc + ((d.tolerancePlus + d.toleranceMinus) / 2) *
            ((d.tolerancePlus + d.toleranceMinus) / 2)) a
        = a + specRssSS l := by
    intro l
    induction l with
    | nil => intro a; simp [specRssSS]
    | cons d t ih =>
        intro a
        simp only [List.foldl_cons, ih, specRssSS, List.map_cons,
          List.sum_cons]
        ring
  simpa [rssSumSquares] using aux dims 0

lemma computeStackup_nominalGap (dims : List Dimension) :
    (computeStackup dims).nominalGap = specNi dims - specNd dims := by
  simp [computeStackup, foldl_stepSums, initSums]

lemma computeStackup_worstCaseMax (dims : List Dimension) :
    (computeStackup dims).worstCaseMax = specIncMax dims - specDecMin dims := by
  simp [computeStackup, foldl_stepSums, initSums]

lemma computeStackup_worstCaseMin (dims : List Dimension) :
    (computeStackup dims).worstCaseMin = specIncMin dims - specDecMax dims := by
  simp [computeStackup, foldl_stepSums, initSums]

lemma computeStackup_rssMin (dims : List Dimension) :
    (computeStackup dims).rssMin =
      ((specNi dims - specNd dims : ℚ) : ℝ) - specRssTol dims := by
  simp [computeStackup, foldl_stepSums, initSums, specRssTol,
    rssSumSquares_eq]

lemma computeStackup_rssMax (dims : List Dimension) :
    (computeStackup dims).rssMax =
      ((specNi dims - specNd dims : ℚ) : ℝ) + specRssTol dims := by
  simp [computeStackup, foldl_stepSums, initSums, specRssTol,
    rssSumSquares_eq]

lemma computeStackup_contributors (dims : List Dimension) :
    (computeStackup dims).contributors = dims.length := rfl

lemma computeStackup_interferenceProb (dims : List Dimension) :
    (computeStackup dims).interferenceProb =
      if 0 < specRssTol dims / 3 then
        normCdfApprox
          ((0 - ((specNi dims - specNd dims : ℚ) : ℝ)) /
            (if specRssTol dims / 3 = 0 then 0.001 else specRssTol dims / 3))
          * 100
      else 0 := by
  simp [computeStackup, foldl_stepSums, initSums, specRssTol,
    rssSumSquares_eq]

open Classical in
/-- The probability evaluation the specification describes: the normal-tail
formula is always evaluated, with `sigma` replaced by the fixed epsilon
`0.001` whenever it is zero.  (The source instead leaves the probability at
the literal `0` when `sigma` is not positive; this definition exists to be
compared against that behaviour.) -/
noncomputable def epsilonGuardedProb (dims : List Dimension) : ℝ :=
  let sigma := specRssTol dims / 3
  normCdfApprox
    ((0 - ((specNi dims - specNd dims : ℚ) : ℝ)) /
      (if sigma = 0 then 0.001 else sigma)) * 100

lemma approxT_pos (z : ℝ) : 0 < approxT z := by
  have h : (0:ℝ) ≤ |z| := abs_nonneg z
  have : (0:ℝ) < 1 + 0.2316419 * |z| := by nlinarith
  exact div_pos one_pos this

lemma approxT_le_one (z : ℝ) : approxT z ≤ 1 := by
  have h : (0:ℝ) ≤ |z| := abs_nonneg z
  have hd : (0:ℝ) < 1 + 0.2316419 * |z| := by nlinarith
  rw [approxT, div_le_one hd]
  nlinarith

lemma approxPhi_pos (z : ℝ) : 0 < approxPhi z := by
  have := Real.exp_pos (-z * z / 2)
  unfold approxPhi
  nlinarith

lemma approxPhi_le (z : ℝ) : approxPhi z ≤ 0.3989423 := by
  have h1 : Real.exp (-z * z / 2) ≤ 1 := by
    rw [Real.exp_le_one_iff]
    nlinarith [sq_nonneg z]
  unfold approxPhi
  nlinarith [Real.exp_pos (-z * z / 2)]

lemma gpoly_nonneg {t : ℝ} (h0 : 0 ≤ t) (h1 : t ≤ 1) :
    0 ≤ 0.3193815 + t *
      (-0.3565638 + t * (1.781478 + t * (-1.821256 + t * 1.330274))) := by
  nlinarith [mul_nonneg (mul_nonneg h0 h0) (sub_nonneg.mpr h1),
    mul_nonneg (sub_nonneg.mpr h1) (by linarith : (0:ℝ) ≤ 1 + t),
    mul_nonneg (sq_nonneg (t - 0.41))
      (by nlinarith [sq_nonneg t] : (0:ℝ) ≤ t ^ 2 + 0.82 * t + 0.5043)]

lemma tgpoly_le {t : ℝ} (h0 : 0 ≤ t) (h1 : t ≤ 1) :
    t * (0.3193815 + t *
      (-0.3565638 + t * (1.781478 + t * (-1.821256 + t * 1.330274))))
      ≤ 2.1008595 := by
  nlinarith [sq_nonneg t,
    mul_nonneg (sub_nonneg.mpr h1)
      (by nlinarith [sq_nonneg t] : (0:ℝ) ≤ 1 + t + t ^ 2),
    mul_nonneg (mul_nonneg (mul_nonneg h0 h0) (mul_nonneg h0 h0))
      (sub_nonneg.mpr h1),
    mul_nonneg (mul_nonneg h0 h0) (mul_nonneg h0 h0)]

lemma approxP_nonneg (z : ℝ) : 0 ≤ approxP z := by
  have ht0 := approxT_pos z
  have ht1 := approxT_le_one z
  have hg := gpoly_nonneg ht0.le ht1
  have hphi := approxPhi_pos z
  unfold approxP
  positivity

lemma approxP_le_one (z : ℝ) : approxP z ≤ 1 := by
  have ht0 := approxT_pos z
  have ht1 := approxT_le_one z
  have hg := gpoly_nonneg ht0.le ht1
  have htg := tgpoly_le ht0.le ht1
  have hphi0 := approxPhi_pos z
  have hphi1 := approxPhi_le z
  have htgn : 0 ≤ approxT z *
      (0.3193815 + approxT z *
        (-0.3565638 + approxT z *
          (1.781478 + approxT z * (-1.821256 + approxT z * 1.330274)))) :=
    mul_nonneg ht0.le hg
  calc approxP z
      = approxPhi z * (approxT z *
          (0.3193815 + approxT z *
            (-0.3565638 + approxT z *
              (1.781478 + approxT z * (-1.821256 + approxT z * 1.330274))))) := by
        unfold approxP; ring
    _ ≤ 0.3989423 * 2.1008595 := by
        exact mul_le_mul hphi1 htg htgn (by norm_num)
    _ ≤ 1 := by norm_num

lemma normCdfApprox_nonneg (z : ℝ) : 0 ≤ normCdfApprox z := by
  unfold normCdfApprox
  split_ifs
  · linarith [approxP_le_one z]
  · exact approxP_nonneg z

lemma normCdfApprox_le_one (z : ℝ) : normCdfApprox z ≤ 1 := by
  unfold normCdfApprox
  split_ifs
  · linarith [approxP_nonneg z]
  · exact approxP_le_one z

/-- Assembly mode of the hole-fit calculator (source `AssemblyType`). -/
inductive AssemblyType where
  | FLOATING
  | FIXED
  deriving DecidableEq

/-- A pin or hole record of the hole-fit calculator (source
`PartDimension`): size nominal, plus/minus size tolerances, and the
drawing's diametral true-position tolerance. -/
structure PartDimension where
  nominal : ℚ
  tolPlus : ℚ
  tolMinus : ℚ
  tpSpec : ℚ
  deriving DecidableEq

/-- The misalignment vector of the simulation (source `deviation` state). -/
structure Deviation where
  x : ℚ
  y : ℚ
  deriving DecidableEq

/-- Status reported by the hole-fit analysis.  The source declares the
three-valued set `'SAFE' | 'RISK' | 'FAIL'` but only ever assigns SAFE or
FAIL. -/
inductive FitStatus where
  | SAFE
  | RISK
  | FAIL
  deriving DecidableEq

/-- Output record of the hole-fit `useMemo` (the fields the source returns,
except the templated recommendation string, which carries no numeric
content). -/
structure FitAnalysis where
  pinMMC : ℚ
  h1MMC : ℚ
  maxAllowableTP : ℚ
  status : FitStatus
  actualTP : ℝ
  isSimulationInterference : Prop
  radialClearance : ℚ
  actualOffset : ℝ

/-- The hole-fit engine: MMC boundaries, the mode's position-tolerance
budget and status test, and the mode-independent misalignment simulation,
exactly as the source's `useMemo` computes them. -/
noncomputable def computeFit (mode : AssemblyType) (pin hole1 hole2 : PartDimension)
    (deviation : Deviation) : FitAnalysis :=
  let pinMMC := pin.nominal + pin.tolPlus
  let h1MMC := hole1.nominal - hole1.tolMinus
  let h2MMC := hole2.nominal - hole2.tolMinus
  let actualOffset : ℝ :=
    Real.sqrt (((deviation.x : ℚ) : ℝ) ^ 2 + ((deviation.y : ℚ) : ℝ) ^ 2)
  let actualTP : ℝ := 2 * actualOffset
  let radialClearance : ℚ := (h1MMC - pinMMC) / 2
  let isSimulationInterference : Prop := ((radialClearance : ℚ) : ℝ) < actualOffset
  match mode with
  | AssemblyType.FLOATING =>
      let clearance1 := h1MMC - pinMMC
      let clearance2 := h2MMC - pinMMC
      let limitingClearance := min clearance1 clearance2
      { pinMMC := pinMMC
        h1MMC := h1MMC
        maxAllowableTP := limitingClearance
        status :=
          if hole1.tpSpec > clearance1 ∨ hole2.tpSpec > clearance2 then
            FitStatus.FAIL
          else FitStatus.SAFE
        actualTP := actualTP
        isSimulationInterference := isSimulationInterference
        radialClearance := radialClearance
        actualOffset := actualOffset }
  | AssemblyType.FIXED =>
      let totalBudget := h1MMC - pinMMC
      { pinMMC := pinMMC
        h1MMC := h1MMC
        maxAllowableTP := totalBudget / 2
        status :=
          if hole1.tpSpec + hole2.tpSpec > totalBudget then FitStatus.FAIL
          else FitStatus.SAFE
        actualTP := actualTP
        isSimulationInterference := isSimulationInterference
        radialClearance := radialClearance
        actualOffset := actualOffset }

/-- Round to `precision` decimal places: the effect of the source's
`parseFloat(v.toFixed(precision))` on the idealized (exact) value, ties
resolved upward as `toFixed` does. -/
def roundTo (precision : ℕ) (v : ℚ) : ℚ :=
  ((round (v * 10 ^ precision) : ℤ) : ℚ) / 10 ^ precision

/-- The per-value conversion `handleToggleUnit` applies when switching to
inches: `factor = 1 / 25.4`, `precision = 4`. -/
def mmToInch (val : ℚ) : ℚ := roundTo 4 (val * (1 / 25.4))

/-- The per-value conversion `handleToggleUnit` applies when switching to
millimeters: `factor = 25.4`, `precision = 3`. -/
def inchToMm (val : ℚ) : ℚ := roundTo 3 (val * 25.4)

/-- The conversion applied to one whole part record when toggling units. -/
def convertPart (cvt : ℚ → ℚ) (p : PartDimension) : PartDimension :=
  ⟨cvt p.nominal, cvt p.tolPlus, cvt p.tolMinus, cvt p.tpSpec⟩

lemma mem_of_mem_incDims {d : Dimension} {dims : List Dimension}
    (h : d ∈ incDims dims) : d ∈ dims := by
  induction dims with
  | nil => simp [incDims] at h
  | cons e l ih =>
      rw [incDims] at h
      cases he : e.type <;> rw [he] at h
      · rcases List.mem_cons.mp h with h1 | h1
        · simp [h1]
        · exact List.mem_cons_of_mem _ (ih h1)
      · exact List.mem_cons_of_mem _ (ih h)

lemma mem_of_mem_decDims {d : Dimension} {dims : List Dimension}
    (h : d ∈ decDims dims) : d ∈ dims := by
  induction dims with
  | nil => simp [decDims] at h
  | cons e l ih =>
      rw [decDims] at h
      cases he : e.type <;> rw [he] at h
      · exact List.mem_cons_of_mem _ (ih h)
      · rcases List.mem_cons.mp h with h1 | h1
        · simp [h1]
        · exact List.mem_cons_of_mem _ (ih h1)

lemma sum_map_inc_add_dec (f : Dimension → ℚ) (dims : List Dimension) :
    ((incDims dims).map f).sum + ((decDims dims).map f).sum
      = (dims.map f).sum := by
  induction dims with
  | nil => simp [incDims, decDims]
  | cons d l ih =>
      cases h : d.type <;>
        simp only [incDims, decDims, h, List.map_cons, List.sum_cons] <;>
        linarith

lemma sum_map_sub (f g : Dimension → ℚ) (l : List Dimension) :
    (l.map f).sum - (l.map g).sum = (l.map (fun d => f d - g d)).sum := by
  induction l with
  | nil => simp
  | cons d t ih => simp only [List.map_cons, List.sum_cons]; linarith

/-- Width of the worst-case band reported by the linear engine. -/
noncomputable def wcWidth (dims : List Dimension) : ℚ :=
  (computeStackup dims).worstCaseMax - (computeStackup dims).worstCaseMin

/-- Width of the RSS band reported by the linear engine (twice the RSS
tolerance). -/
noncomputable def rssWidth (dims : List Dimension) : ℝ :=
  (computeStackup dims).rssMax - (computeStackup dims).rssMin

lemma wcWidth_eq (dims : List Dimension) :
    wcWidth dims
      = (dims.map (fun d => d.tolerancePlus + d.toleranceMinus)).sum := by
  have hinc : specIncMax dims - specIncMin dims
      = ((incDims dims).map (fun d => d.tolerancePlus + d.toleranceMinus)).sum := by
    rw [specIncMax, specIncMin, sum_map_sub]
    have hf : (fun d : Dimension => d.nominal + d.tolerancePlus - (d.nominal - d.toleranceMinus))
        = fun d : Dimension => d.tolerancePlus + d.toleranceMinus := by
      funext d
      ring
    rw [hf]
  have hdec : specDecMax dims - specDecMin dims
      = ((decDims dims).map (fun d => d.tolerancePlus + d.toleranceMinus)).sum := by
    rw [specDecMax, specDecMin, sum_map_sub]
    have hf : (fun d : Dimension => d.nominal + d.tolerancePlus - (d.nominal - d.toleranceMinus))
        = fun d : Dimension => d.tolerancePlus + d.toleranceMinus := by
      funext d
      ring
    rw [hf]
  rw [wcWidth, computeStackup_worstCaseMax, computeStackup_worstCaseMin,
    ← sum_map_inc_add_dec (fun d => d.tolerancePlus + d.toleranceMinus) dims]
  linarith

lemma rssWidth_eq (dims : List Dimension) :
    rssWidth dims = 2 * specRssTol dims := by
  rw [rssWidth, computeStackup_rssMax, computeStackup_rssMin]
  ring

lemma specRssSS_append (l1 l2 : List Dimension) :
    specRssSS (l1 ++ l2) = specRssSS l1 + specRssSS l2 := by
  simp [specRssSS]

lemma specRssSS_nonneg (dims : List Dimension) : 0 ≤ specRssSS dims := by
  induction dims with
  | nil => simp [specRssSS]
  | cons d l ih =>
      simp only [specRssSS, List.map_cons, List.sum_cons] at *
      nlinarith [sq_nonneg ((d.tolerancePlus + d.toleranceMinus) / 2)]

lemma normCdfApprox_scaled (z : ℝ) :
    0 ≤ normCdfApprox z * 100 ∧ normCdfApprox z * 100 ≤ 100 := by
  constructor
  · nlinarith [normCdfApprox_nonneg z]
  · nlinarith [normCdfApprox_le_one z]

/-- C1: `computeStackup` agrees with the reference definition on every
field — `nominalGap = Ni - Nd`, the worst-case bounds from the partitioned
extended sums, the RSS band `nominalGap ∓ sqrt (Σ ((tp+tm)/2)²)` over all
dimensions, and `contributors` the list length — and on the 4-dimension
Housing/PCB/Standoff/Battery scenario it returns `nominalGap = 0.900`,
`worstCaseMax = 1.350`, `worstCaseMin = 0.250` and
`rssTolerance ≈ 0.30414`. -/
theorem stackup_matches_reference_c1 :
    (∀ dims : List Dimension,
      (computeStackup dims).nominalGap = specNi dims - specNd dims
      ∧ (computeStackup dims).worstCaseMax = specIncMax dims - specDecMin dims
      ∧ (computeStackup dims).worstCaseMin = specIncMin dims - specDecMax dims
      ∧ (computeStackup dims).rssMin
          = ((specNi dims - specNd dims : ℚ) : ℝ) - specRssTol dims
      ∧ (computeStackup dims).rssMax
          = ((specNi dims - specNd dims : ℚ) : ℝ) + specRssTol dims
      ∧ (computeStackup dims).contributors = dims.length)
    ∧ ((computeStackup demoDims).nominalGap = 0.9
      ∧ (computeStackup demoDims).worstCaseMax = 1.35
      ∧ (computeStackup demoDims).worstCaseMin = 0.25
      ∧ 0.30413 < specRssTol demoDims ∧ specRssTol demoDims < 0.30415) := by
  constructor
  · intro dims
    exact ⟨computeStackup_nominalGap dims, computeStackup_worstCaseMax dims,
      computeStackup_worstCaseMin dims, computeStackup_rssMin dims,
      computeStackup_rssMax dims, computeStackup_contributors dims⟩
  · refine ⟨?_, ?_, ?_, ?_, ?_⟩
    · rw [computeStackup_nominalGap]
      norm_num [specNi, specNd, incDims, decDims, demoDims]
    · rw [computeStackup_worstCaseMax]
      norm_num [specIncMax, specDecMin, incDims, decDims, demoDims]
    · rw [computeStackup_worstCaseMin]
      norm_num [specIncMin, specDecMax, incDims, decDims, demoDims]
    · have h : ((specRssSS demoDims : ℚ) : ℝ) = 0.0925 := by
        norm_num [specRssSS, demoDims]
      rw [specRssTol, h, Real.lt_sqrt (by norm_num)]
      norm_num
    · have h : ((specRssSS demoDims : ℚ) : ℝ) = 0.0925 := by
        norm_num [specRssSS, demoDims]
      rw [specRssTol, h, Real.sqrt_lt' (by norm_num)]
      norm_num

/-- C2 counterexample: on the empty dimension list the source leaves the
probability at the literal `0`; the epsilon-guarded evaluation of the same
formula (sigma replaced by `0.001`) instead yields a non-zero value
(about 50.0003), so the probability field is not that evaluation. -/
theorem stackup_epsilon_counterexample_c2 :
    (computeStackup []).interferenceProb = 0
    ∧ (computeStackup []).interferenceProb ≠ epsilonGuardedProb [] := by
  have h0 : specRssTol [] = 0 := by
    simp [specRssTol, specRssSS]
  have hz : (computeStackup []).interferenceProb = 0 := by
    rw [computeStackup_interferenceProb, h0]
    norm_num
  refine ⟨hz, ?_⟩
  rw [hz]
  have he : epsilonGuardedProb [] = normCdfApprox 0 * 100 := by
    rw [epsilonGuardedProb]
    simp [h0, specNi, specNd, incDims, decDims]
  rw [he]
  have hn : normCdfApprox 0 = approxP 0 := by
    rw [normCdfApprox]
    norm_num
  rw [hn, approxP, approxPhi, approxT]
  simp only [abs_zero, mul_zero, neg_mul, zero_mul, neg_zero, zero_div,
    Real.exp_zero]
  norm_num

/-- C2 (amended): whenever the combined RSS tolerance is zero (in
particular on the empty list), the probability field is the literal `0`:
the `sigma > 0` gate skips the normal-tail formula entirely, and the
`0.001` epsilon only guards the intermediate z-score, which is then never
used. -/
theorem stackup_zero_sigma_literal_zero_c2 (dims : List Dimension)
    (h : rssSumSquares dims = 0) :
    (computeStackup dims).interferenceProb = 0 := by
  have h0 : specRssTol dims = 0 := by
    rw [specRssTol, ← rssSumSquares_eq, h]
    simp
  rw [computeStackup_interferenceProb, h0]
  norm_num

theorem stackup_zero_sigma_literal_zero_c2_witness :
    rssSumSquares [] = 0 ∧ (computeStackup []).interferenceProb = 0 :=
  ⟨rfl, stackup_zero_sigma_literal_zero_c2 [] rfl⟩

/-- C3 counterexample: with a negative `tolerancePlus` the worst-case band
need not contain the nominal gap — for the single INCREASING dimension
`(nominal 10, tolerancePlus -1, toleranceMinus 0)` the engine returns
`nominalGap = 10` but
`worstCaseMax = 9`. -/
theorem stackup_bounds_counterexample_c3 :
    ¬ ((computeStackup [⟨10, -1, 0, DimensionType.INCREASING⟩]).worstCaseMin
        ≤ (computeStackup [⟨10, -1, 0, DimensionType.INCREASING⟩]).nominalGap
      ∧ (computeStackup [⟨10, -1, 0, DimensionType.INCREASING⟩]).nominalGap
        ≤ (computeStackup [⟨10, -1, 0, DimensionType.INCREASING⟩]).worstCaseMax) := by
  rw [computeStackup_nominalGap, computeStackup_worstCaseMax,
    computeStackup_worstCaseMin]
  norm_num [specNi, specNd, specIncMax, specIncMin, specDecMax, specDecMin,
    incDims, decDims]

/-- C3 (amended): the RSS band always contains the nominal gap
(`rssMin ≤ nominalGap ≤ rssMax`, with no assumption on the inputs); the
worst-case band contains it provided every dimension's `tolerancePlus` and
`toleranceMinus` are non-negative — a negative tolerance magnitude can
invert the worst-case bounds. -/
theorem stackup_gap_bounds_c3 (dims : List Dimension) :
    ((computeStackup dims).rssMin ≤ ((computeStackup dims).nominalGap : ℝ)
      ∧ ((computeStackup dims).nominalGap : ℝ) ≤ (computeStackup dims).rssMax)
    ∧ ((∀ d ∈ dims, 0 ≤ d.tolerancePlus ∧ 0 ≤ d.toleranceMinus) →
        (computeStackup dims).worstCaseMin ≤ (computeStackup dims).nominalGap
        ∧ (computeStackup dims).nominalGap
            ≤ (computeStackup dims).worstCaseMax) := by
  constructor
  · rw [computeStackup_rssMin, computeStackup_rssMax, computeStackup_nominalGap]
    have hs : 0 ≤ specRssTol dims := Real.sqrt_nonneg _
    constructor <;> linarith
  · intro h
    have h1 : specIncMin dims ≤ specNi dims := by
      apply List.sum_le_sum
      intro d hd
      have := (h d (mem_of_mem_incDims hd)).2
      linarith
    have h2 : specNd dims ≤ specDecMax dims := by
      apply List.sum_le_sum
      intro d hd
      have := (h d (mem_of_mem_decDims hd)).1
      linarith
    have h3 : specNi dims ≤ specIncMax dims := by
      apply List.sum_le_sum
      intro d hd
      have := (h d (mem_of_mem_incDims hd)).1
      linarith
    have h4 : specDecMin dims ≤ specNd dims := by
      apply List.sum_le_sum
      intro d hd
      have := (h d (mem_of_mem_decDims hd)).2
      linarith
    rw [computeStackup_nominalGap, computeStackup_worstCaseMax,
      computeStackup_worstCaseMin]
    constructor <;> linarith

theorem stackup_gap_bounds_c3_witness :
    (∀ d ∈ demoDims, 0 ≤ d.tolerancePlus ∧ 0 ≤ d.toleranceMinus)
    ∧ ((computeStackup demoDims).worstCaseMin
        ≤ (computeStackup demoDims).nominalGap
      ∧ (computeStackup demoDims).nominalGap
          ≤ (computeStackup demoDims).worstCaseMax) := by
  have hnn : ∀ d ∈ demoDims, 0 ≤ d.tolerancePlus ∧ 0 ≤ d.toleranceMinus := by
    intro d hd
    simp only [demoDims, List.mem_cons, List.not_mem_nil, or_false] at hd
    rcases hd with h | h | h | h <;> subst h <;> norm_num
  exact ⟨hnn, (stackup_gap_bounds_c3 demoDims).2 hnn⟩

lemma wcWidth_middle (pre post : List Dimension) (e : Dimension) :
    wcWidth (pre ++ e :: post)
      = (pre.map (fun d => d.tolerancePlus + d.toleranceMinus)).sum
        + ((e.tolerancePlus + e.toleranceMinus)
          + (post.map (fun d => d.tolerancePlus + d.toleranceMinus)).sum) := by
  rw [wcWidth_eq]
  simp [List.map_append]

lemma rssWidth_middle (pre post : List Dimension) (e : Dimension) :
    rssWidth (pre ++ e :: post)
      = 2 * Real.sqrt (((specRssSS pre
          + (((e.tolerancePlus + e.toleranceMinus) / 2) ^ 2
            + specRssSS post) : ℚ) : ℝ)) := by
  rw [rssWidth_eq, specRssTol]
  have h : specRssSS (pre ++ e :: post)
      = specRssSS pre
        + (((e.tolerancePlus + e.toleranceMinus) / 2) ^ 2 + specRssSS post) := by
    rw [specRssSS_append]
    simp [specRssSS]
  rw [h]

/-- C4 counterexample: with a negative tolerance magnitude, raising
`tolerancePlus` can strictly shrink the RSS band — for the single
dimension `(0, tolerancePlus -3, toleranceMinus 0)`, replacing
`tolerancePlus` by the strictly larger `-1` drops `rssMax - rssMin` from
`3` to `1`. -/
theorem stackup_mono_counterexample_c4 :
    (⟨0, -3, 0, DimensionType.INCREASING⟩ : Dimension).tolerancePlus < (-1 : ℚ)
    ∧ rssWidth [⟨0, -1, 0, DimensionType.INCREASING⟩]
      < rssWidth [⟨0, -3, 0, DimensionType.INCREASING⟩] := by
  constructor
  · norm_num
  · rw [rssWidth_eq, rssWidth_eq, specRssTol, specRssTol]
    have h1 : ((specRssSS [⟨0, -1, 0, DimensionType.INCREASING⟩] : ℚ) : ℝ)
        = (1 / 2 : ℝ) ^ 2 := by
      norm_num [specRssSS]
    have h2 : ((specRssSS [⟨0, -3, 0, DimensionType.INCREASING⟩] : ℚ) : ℝ)
        = (3 / 2 : ℝ) ^ 2 := by
      norm_num [specRssSS]
    rw [h1, h2, Real.sqrt_sq (by norm_num), Real.sqrt_sq (by norm_num)]
    norm_num

/-- C4 (amended): raising any single `tolerancePlus` or `toleranceMinus`
never decreases the worst-case band width `worstCaseMax - worstCaseMin`;
it also never decreases the RSS band width `rssMax - rssMin` (twice the
RSS tolerance) provided the modified dimension's combined tolerance
`tolerancePlus + toleranceMinus` was non-negative — a negative combined
tolerance (as in the counterexample) can move the squared term toward zero
and shrink the RSS band. -/
theorem stackup_tolerance_mono_c4 (pre post : List Dimension) (d : Dimension)
    (vp vm : ℚ) (hp : d.tolerancePlus < vp) (hm : d.toleranceMinus < vm) :
    (wcWidth (pre ++ d :: post)
        ≤ wcWidth (pre ++ { d with tolerancePlus := vp } :: post)
      ∧ wcWidth (pre ++ d :: post)
        ≤ wcWidth (pre ++ { d with toleranceMinus := vm } :: post))
    ∧ (0 ≤ d.tolerancePlus + d.toleranceMinus →
        rssWidth (pre ++ d :: post)
          ≤ rssWidth (pre ++ { d with tolerancePlus := vp } :: post)
        ∧ rssWidth (pre ++ d :: post)
          ≤ rssWidth (pre ++ { d with toleranceMinus := vm } :: post)) := by
  constructor
  · constructor <;>
      · rw [wcWidth_middle, wcWidth_middle]
        simp only []
        linarith
  · intro h0
    have key : ∀ e : Dimension,
        d.tolerancePlus + d.toleranceMinus
            ≤ e.tolerancePlus + e.toleranceMinus →
        rssWidth (pre ++ d :: post) ≤ rssWidth (pre ++ e :: post) := by
      intro e he
      rw [rssWidth_middle, rssWidth_middle]
      have hsq : ((d.tolerancePlus + d.toleranceMinus) / 2) ^ 2
          ≤ ((e.tolerancePlus + e.toleranceMinus) / 2) ^ 2 := by
        apply pow_le_pow_left₀ (by linarith) (by linarith)
      have hle : (specRssSS pre
            + (((d.tolerancePlus + d.toleranceMinus) / 2) ^ 2
              + specRssSS post) : ℚ)
          ≤ specRssSS pre
            + (((e.tolerancePlus + e.toleranceMinus) / 2) ^ 2
              + specRssSS post) := by
        linarith
      have := Real.sqrt_le_sqrt (show ((specRssSS pre
            + (((d.tolerancePlus + d.toleranceMinus) / 2) ^ 2
              + specRssSS post) : ℚ) : ℝ)
          ≤ ((specRssSS pre
            + (((e.tolerancePlus + e.toleranceMinus) / 2) ^ 2
              + specRssSS post) : ℚ) : ℝ) by exact_mod_cast hle)
      linarith [this]
    constructor
    · exact key _ (by simp only []; linarith)
    · exact key _ (by simp only []; linarith)

theorem stackup_tolerance_mono_c4_witness :
    ((0.1 : ℚ) < 0.2) ∧ ((0.1 : ℚ) < 0.3)
    ∧ (0 ≤ (0.1 : ℚ) + 0.1)
    ∧ wcWidth [⟨10, 0.1, 0.1, DimensionType.INCREASING⟩]
        ≤ wcWidth [⟨10, 0.2, 0.1, DimensionType.INCREASING⟩]
    ∧ rssWidth [⟨10, 0.1, 0.1, DimensionType.INCREASING⟩]
        ≤ rssWidth [⟨10, 0.1, 0.3, DimensionType.INCREASING⟩] := by
  have h := stackup_tolerance_mono_c4 [] []
    ⟨10, 0.1, 0.1, DimensionType.INCREASING⟩ 0.2 0.3
    (by norm_num) (by norm_num)
  exact ⟨by norm_num, by norm_num, by norm_num, h.1.1, (h.2 (by norm_num)).2⟩

/-- C10: for every dimension list — empty, negative nominals or tolerances
included — the interference probability reported by the linear engine lies
in the closed interval `[0, 100]`: the rational-polynomial tail
approximation times 100 stays in range, and the zero-sigma branch returns
`0`. -/
theorem stackup_prob_in_range_c10 (dims : List Dimension) :
    0 ≤ (computeStackup dims).interferenceProb
    ∧ (computeStackup dims).interferenceProb ≤ 100 := by
  rw [computeStackup_interferenceProb]
  by_cases h : 0 < specRssTol dims / 3
  · rw [if_pos h]
    exact normCdfApprox_scaled _
  · rw [if_neg h]
    norm_num

/-- The M6 floating-fastener pin of the default scenario. -/
def pinM6 : PartDimension := ⟨6, 0, 0.1, 0⟩

/-- The M6 floating-fastener clearance hole of the default scenario. -/
def holeM6 : PartDimension := ⟨6.6, 0.2, 0, 0.5⟩

/-- The M8 fixed-fastener pin of the sample scenario. -/
def pinM8 : PartDimension := ⟨8, 0, 0.15, 0⟩

/-- The M8 fixed-fastener clearance hole (plate 1) of the sample scenario. -/
def holeM8Clearance : PartDimension := ⟨9, 0.25, 0, 0.4⟩

/-- The M8 fixed-fastener threaded feature (plate 2) of the sample
scenario. -/
def holeM8Thread : PartDimension := ⟨8, 0, 0, 0.4⟩

/-- The zero misalignment vector (scenario loads reset the deviation). -/
def devZero : Deviation := ⟨0, 0⟩

/-- C5: in FLOATING mode the reported budget is the minimum of the two
per-hole MMC clearances, and the status is FAIL exactly when either hole's
declared position tolerance exceeds its own clearance (each hole checked
against its own budget, not the minimum), SAFE otherwise; on the M6
scenario (pin 6.00, tolerances +0 and -0.10; both holes 6.60, +0.20 and
-0; spec 0.50) it
returns `pinMMC = 6.00`, `hole1MMC = 6.60`,
`maxAllowablePositionTolerance = 0.60` and SAFE. -/
theorem holefit_floating_c5 :
    (∀ (pin h1 h2 : PartDimension) (dev : Deviation),
      (computeFit AssemblyType.FLOATING pin h1 h2 dev).maxAllowableTP
        = min ((h1.nominal - h1.tolMinus) - (pin.nominal + pin.tolPlus))
            ((h2.nominal - h2.tolMinus) - (pin.nominal + pin.tolPlus))
      ∧ ((computeFit AssemblyType.FLOATING pin h1 h2 dev).status
            = FitStatus.FAIL
          ↔ h1.tpSpec > (h1.nominal - h1.tolMinus) - (pin.nominal + pin.tolPlus)
            ∨ h2.tpSpec
              > (h2.nominal - h2.tolMinus) - (pin.nominal + pin.tolPlus))
      ∧ ((computeFit AssemblyType.FLOATING pin h1 h2 dev).status
            = FitStatus.SAFE
          ↔ ¬(h1.tpSpec
                > (h1.nominal - h1.tolMinus) - (pin.nominal + pin.tolPlus)
              ∨ h2.tpSpec
                > (h2.nominal - h2.tolMinus) - (pin.nominal + pin.tolPlus))))
    ∧ ((computeFit AssemblyType.FLOATING pinM6 holeM6 holeM6 devZero).pinMMC = 6
      ∧ (computeFit AssemblyType.FLOATING pinM6 holeM6 holeM6 devZero).h1MMC
          = 6.6
      ∧ (computeFit AssemblyType.FLOATING pinM6 holeM6 holeM6
          devZero).maxAllowableTP = 0.6
      ∧ (computeFit AssemblyType.FLOATING pinM6 holeM6 holeM6 devZero).status
          = FitStatus.SAFE) := by
  constructor
  · intro pin h1 h2 dev
    refine ⟨rfl, ?_, ?_⟩
    · by_cases hc : h1.tpSpec > (h1.nominal - h1.tolMinus)
          - (pin.nominal + pin.tolPlus)
        ∨ h2.tpSpec > (h2.nominal - h2.tolMinus) - (pin.nominal + pin.tolPlus)
      · simp [computeFit, hc]
      · simp [computeFit, hc]
    · by_cases hc : h1.tpSpec > (h1.nominal - h1.tolMinus)
          - (pin.nominal + pin.tolPlus)
        ∨ h2.tpSpec > (h2.nominal - h2.tolMinus) - (pin.nominal + pin.tolPlus)
      · simp [computeFit, hc]
      · simp [computeFit, hc]
  · refine ⟨?_, ?_, ?_, ?_⟩
    · norm_num [computeFit, pinM6, holeM6]
    · norm_num [computeFit, pinM6, holeM6]
    · norm_num [computeFit, pinM6, holeM6]
    · norm_num [computeFit, pinM6, holeM6]

/-- C6: in FIXED mode only hole1 and the pin form the budget:
`totalBudget = hole1MMC - pinMMC`, the reported allowance is half the
budget, the status is FAIL exactly when the two declared position
tolerances together exceed the budget, and hole2's size never enters the
budget (changing its nominal or minus tolerance changes neither the
allowance nor the status); on the M8 scenario (pin 8.00, hole1 9.00 spec
0.40, threaded hole2 8.00 spec 0.40) the budget is 1.00 and the status
SAFE. -/
theorem holefit_fixed_c6 :
    (∀ (pin h1 h2 : PartDimension) (dev : Deviation),
      (computeFit AssemblyType.FIXED pin h1 h2 dev).maxAllowableTP
        = ((h1.nominal - h1.tolMinus) - (pin.nominal + pin.tolPlus)) / 2
      ∧ ((computeFit AssemblyType.FIXED pin h1 h2 dev).status = FitStatus.FAIL
          ↔ h1.tpSpec + h2.tpSpec
              > (h1.nominal - h1.tolMinus) - (pin.nominal + pin.tolPlus))
      ∧ ((computeFit AssemblyType.FIXED pin h1 h2 dev).status = FitStatus.SAFE
          ↔ ¬(h1.tpSpec + h2.tpSpec
              > (h1.nominal - h1.tolMinus) - (pin.nominal + pin.tolPlus))))
    ∧ (∀ (pin h1 h2 : PartDimension) (dev : Deviation) (n m : ℚ),
      (computeFit AssemblyType.FIXED pin h1 h2 dev).maxAllowableTP
        = (computeFit AssemblyType.FIXED pin h1
            { h2 with nominal := n, tolMinus := m } dev).maxAllowableTP
      ∧ (computeFit AssemblyType.FIXED pin h1 h2 dev).status
        = (computeFit AssemblyType.FIXED pin h1
            { h2 with nominal := n, tolMinus := m } dev).status)
    ∧ ((computeFit AssemblyType.FIXED pinM8 holeM8Clearance holeM8Thread
          devZero).pinMMC = 8
      ∧ (computeFit AssemblyType.FIXED pinM8 holeM8Clearance holeM8Thread
          devZero).h1MMC = 9
      ∧ (computeFit AssemblyType.FIXED pinM8 holeM8Clearance holeM8Thread
            devZero).h1MMC
          - (computeFit AssemblyType.FIXED pinM8 holeM8Clearance holeM8Thread
            devZero).pinMMC = 1
      ∧ (computeFit AssemblyType.FIXED pinM8 holeM8Clearance holeM8Thread
          devZero).maxAllowableTP = 0.5
      ∧ (computeFit AssemblyType.FIXED pinM8 holeM8Clearance holeM8Thread
          devZero).status = FitStatus.SAFE) := by
  refine ⟨?_, ?_, ?_, ?_, ?_, ?_, ?_⟩
  · intro pin h1 h2 dev
    refine ⟨rfl, ?_, ?_⟩
    · by_cases hc : h1.tpSpec + h2.tpSpec
          > (h1.nominal - h1.tolMinus) - (pin.nominal + pin.tolPlus)
      · simp [computeFit, hc]
      · simp [computeFit, hc]
    · by_cases hc : h1.tpSpec + h2.tpSpec
          > (h1.nominal - h1.tolMinus) - (pin.nominal + pin.tolPlus)
      · simp [computeFit, hc]
      · simp [computeFit, hc]
  · intro pin h1 h2 dev n m
    exact ⟨rfl, rfl⟩
  · norm_num [computeFit, pinM8, holeM8Clearance, holeM8Thread]
  · norm_num [computeFit, pinM8, holeM8Clearance, holeM8Thread]
  · norm_num [computeFit, pinM8, holeM8Clearance, holeM8Thread]
  · norm_num [computeFit, pinM8, holeM8Clearance, holeM8Thread]
  · norm_num [computeFit, pinM8, holeM8Clearance, holeM8Thread]

/-- C7: in both modes the misalignment simulation reports
`actualOffset = sqrt(x² + y²)`, `actualTP = 2 * actualOffset`,
`radialClearance = (hole1MMC - pinMMC) / 2`, and flags interference
exactly when the radial offset strictly exceeds the radial clearance — in
particular an offset exactly equal to the clearance is not interference. -/
theorem holefit_simulation_c7 (mode : AssemblyType)
    (pin h1 h2 : PartDimension) (dev : Deviation) :
    (computeFit mode pin h1 h2 dev).actualOffset
        = Real.sqrt (((dev.x : ℚ) : ℝ) ^ 2 + ((dev.y : ℚ) : ℝ) ^ 2)
    ∧ (computeFit mode pin h1 h2 dev).actualTP
        = 2 * (computeFit mode pin h1 h2 dev).actualOffset
    ∧ (computeFit mode pin h1 h2 dev).radialClearance
        = ((h1.nominal - h1.tolMinus) - (pin.nominal + pin.tolPlus)) / 2
    ∧ ((computeFit mode pin h1 h2 dev).isSimulationInterference
        ↔ (((computeFit mode pin h1 h2 dev).radialClearance : ℚ) : ℝ)
            < (computeFit mode pin h1 h2 dev).actualOffset)
    ∧ ((computeFit mode pin h1 h2 dev).actualOffset
          = (((computeFit mode pin h1 h2 dev).radialClearance : ℚ) : ℝ)
        → ¬ (computeFit mode pin h1 h2 dev).isSimulationInterference) := by
  cases mode <;>
    exact ⟨rfl, rfl, rfl, Iff.rfl, fun h => not_lt.mpr (le_of_eq h)⟩

theorem holefit_simulation_c7_witness :
    (computeFit AssemblyType.FLOATING (⟨6, 0, 0, 0⟩ : PartDimension)
        (⟨7, 0, 0, 0⟩ : PartDimension) (⟨7, 0, 0, 0⟩ : PartDimension)
        (⟨0.3, 0.4⟩ : Deviation)).actualOffset
      = (((computeFit AssemblyType.FLOATING (⟨6, 0, 0, 0⟩ : PartDimension)
        (⟨7, 0, 0, 0⟩ : PartDimension) (⟨7, 0, 0, 0⟩ : PartDimension)
        (⟨0.3, 0.4⟩ : Deviation)).radialClearance : ℚ) : ℝ)
    ∧ ¬ (computeFit AssemblyType.FLOATING (⟨6, 0, 0, 0⟩ : PartDimension)
        (⟨7, 0, 0, 0⟩ : PartDimension) (⟨7, 0, 0, 0⟩ : PartDimension)
        (⟨0.3, 0.4⟩ : Deviation)).isSimulationInterference := by
  have hoff : (computeFit AssemblyType.FLOATING (⟨6, 0, 0, 0⟩ : PartDimension)
      (⟨7, 0, 0, 0⟩ : PartDimension) (⟨7, 0, 0, 0⟩ : PartDimension)
      (⟨0.3, 0.4⟩ : Deviation)).actualOffset
      = (((computeFit AssemblyType.FLOATING (⟨6, 0, 0, 0⟩ : PartDimension)
        (⟨7, 0, 0, 0⟩ : PartDimension) (⟨7, 0, 0, 0⟩ : PartDimension)
        (⟨0.3, 0.4⟩ : Deviation)).radialClearance : ℚ) : ℝ) := by
    show Real.sqrt ((((0.3 : ℚ) : ℝ)) ^ 2 + (((0.4 : ℚ) : ℝ)) ^ 2)
        = (((7 - 0 - (6 + 0)) / 2 : ℚ) : ℝ)
    have e1 : (((0.3 : ℚ) : ℝ)) ^ 2 + (((0.4 : ℚ) : ℝ)) ^ 2 = (0.5 : ℝ) ^ 2 := by
      push_cast
      norm_num
    rw [e1, Real.sqrt_sq (by norm_num)]
    push_cast
    norm_num
  exact ⟨hoff, (holefit_simulation_c7 AssemblyType.FLOATING ⟨6, 0, 0, 0⟩
    ⟨7, 0, 0, 0⟩ ⟨7, 0, 0, 0⟩ ⟨0.3, 0.4⟩).2.2.2.2 hoff⟩

/-- C8: the four misalignment-simulation outputs depend only on the pin,
hole1's nominal and minus size tolerance, and the deviation vector — two
calls that differ arbitrarily in assembly mode, in the whole hole2 record,
or in either hole's declared position tolerance produce identical
simulation results. -/
theorem holefit_sim_noninterference_c8 (mode mode' : AssemblyType)
    (pin h1 h2 h2' : PartDimension) (dev : Deviation) (tp' : ℚ) :
    (computeFit mode pin h1 h2 dev).actualOffset
        = (computeFit mode' pin { h1 with tpSpec := tp' } h2' dev).actualOffset
    ∧ (computeFit mode pin h1 h2 dev).actualTP
        = (computeFit mode' pin { h1 with tpSpec := tp' } h2' dev).actualTP
    ∧ (computeFit mode pin h1 h2 dev).radialClearance
        = (computeFit mode' pin { h1 with tpSpec := tp' } h2'
            dev).radialClearance
    ∧ ((computeFit mode pin h1 h2 dev).isSimulationInterference
        ↔ (computeFit mode' pin { h1 with tpSpec := tp' } h2'
            dev).isSimulationInterference) := by
  cases mode <;> cases mode' <;> exact ⟨rfl, rfl, rfl, Iff.rfl⟩

/-- C9: toggling units maps each value `v` to `round(v / 25.4)` at 4
decimal places toward inches and to `round(v * 25.4)` at 3 decimal places
toward millimeters, and the round trip is lossy: converting `0.0001` mm to
inches and back yields `0`, not `0.0001`. -/
theorem unit_conversion_lossy_c9 :
    (∀ v : ℚ, mmToInch v = roundTo 4 (v / 25.4))
    ∧ (∀ v : ℚ, inchToMm v = roundTo 3 (v * 25.4))
    ∧ inchToMm (mmToInch (1 / 10000)) ≠ 1 / 10000 := by
  refine ⟨fun v => by rw [mmToInch, mul_one_div], fun v => rfl, ?_⟩
  have h1 : mmToInch (1 / 10000) = 0 := by
    rw [mmToInch, roundTo, round_eq]
    norm_num
  rw [h1]
  have h2 : inchToMm 0 = 0 := by
    rw [inchToMm, roundTo, round_eq]
    norm_num
  rw [h2]
  norm_num
